import Mathlib

/-!
# Verification of the D2L notebook corpus

A shallow embedding of the code cells of the notebooks in this repository
(automatic differentiation with MXNet autograd, parameter initialization and
parameter sharing with JAX/Flax, asynchronous computation with the MXNet
backend), together with models — built from the specification's own
description — of the external framework mechanisms those cells invoke, since
the frameworks themselves are not part of the repository.

Real values are represented by rationals: every concrete value appearing in
the notebooks (0., 1., 2., 3., 2·x, x·x, …) is exactly representable.
-/

/-! ## Vectors of rationals and the elementwise operations used by the cells -/

/-- Elementwise addition of two vectors. -/
def vadd (u v : List ℚ) : List ℚ := List.zipWith (· + ·) u v

/-- Elementwise product of two vectors (the `x * x` of the notebook). -/
def vmul (u v : List ℚ) : List ℚ := List.zipWith (· * ·) u v

/-- Scalar multiple of a vector (the `2 * …`, `100 * b` of the notebook). -/
def vscale (c : ℚ) (v : List ℚ) : List ℚ := v.map (fun t => c * t)

/-- Sum of the entries of a vector (the `.sum()` of the notebook). -/
def vsum (v : List ℚ) : ℚ := v.foldr (· + ·) 0

/-- Dot product of two vectors (the `np.dot(x, x)` of the notebook). -/
def vdot (u v : List ℚ) : ℚ := vsum (vmul u v)

/-! ## The autograd engine

Modelled from the spec: the MXNet autograd engine itself is not part of this
repository; the spec describes it as a mechanism that records a computational
graph inside `autograd.record()` and, on `backward()`, works backwards through
the graph applying the chain rule, reducing a non-scalar output to a scalar by
summing before computing the gradient, with `detach` producing a value with no
recorded ancestry that blocks gradient flow.  The recorded notebook outputs
under `src/` corroborate this model. -/

/-- Modelled from the spec: an expression recorded by the `autograd.record()`
scope — the computational-graph language the notebook cells actually build
over the single differentiated input `x`.  `detach` wipes provenance. -/
inductive AExpr where
  | var : AExpr
  | smul : ℚ → AExpr → AExpr
  | mul : AExpr → AExpr → AExpr
  | dot : AExpr → AExpr → AExpr
  | sumE : AExpr → AExpr
  | detach : AExpr → AExpr
deriving DecidableEq

/-- Forward evaluation of a recorded expression at input vector `x`.
Scalar results (`dot`, `sum`) are one-entry vectors, matching the 0-d arrays
of the framework. -/
def evalE : AExpr → List ℚ → List ℚ
  | .var, x => x
  | .smul c e, x => vscale c (evalE e x)
  | .mul e₁ e₂, x => vmul (evalE e₁ x) (evalE e₂ x)
  | .dot e₁ e₂, x => [vdot (evalE e₁ x) (evalE e₂ x)]
  | .sumE e, x => [vsum (evalE e x)]
  | .detach e, x => evalE e x

/-- Modelled from the spec: reverse-mode chain rule.  `pullback e x ct` is the
cotangent on the input `x` obtained by propagating the output cotangent `ct`
backwards through the recorded graph of `e`; `detach` contributes nothing. -/
def pullback : AExpr → List ℚ → List ℚ → List ℚ
  | .var, _, ct => ct
  | .smul c e, x, ct => pullback e x (vscale c ct)
  | .mul e₁ e₂, x, ct =>
      vadd (pullback e₁ x (vmul ct (evalE e₂ x)))
           (pullback e₂ x (vmul ct (evalE e₁ x)))
  | .dot e₁ e₂, x, ct =>
      vadd (pullback e₁ x (vscale ct.headI (evalE e₂ x)))
           (pullback e₂ x (vscale ct.headI (evalE e₁ x)))
  | .sumE e, x, ct => pullback e x (List.replicate (evalE e x).length ct.headI)
  | .detach _, x, _ => List.replicate x.length 0

/-- Modelled from the spec: `y.backward()` computes the gradient of the sum of
the entries of `y` with respect to `x` (for a scalar `y` this is just its
gradient): the output cotangent is the all-ones vector. -/
def backward (e : AExpr) (x : List ℚ) : List ℚ :=
  pullback e x (List.replicate (evalE e x).length 1)

/-- The mutable state the autograd cells manipulate: the input vector and its
attached gradient buffer. -/
structure TapeState where
  x : List ℚ
  grad : List ℚ
deriving DecidableEq

/-- `x.attach_grad()`: allocate the gradient buffer, initialized with 0s. -/
def attach_grad (x : List ℚ) : TapeState :=
  ⟨x, List.replicate x.length 0⟩

/-- Modelled from the spec: running `y.backward()` for a freshly recorded `y`
overwrites the gradient buffer with the newly calculated gradient (the
notebook: "MXNet resets the gradient buffer whenever we record a new
gradient"). -/
def backwardOp (e : AExpr) (s : TapeState) : TapeState :=
  ⟨s.x, backward e s.x⟩

/-- The concrete input of the autograd notebook: `x = np.arange(4.0)`. -/
def x0 : List ℚ := [0, 1, 2, 3]

/-- The first recorded function: `y = 2 * np.dot(x, x)`. -/
def yDot : AExpr := .smul 2 (.dot .var .var)

/-- The non-scalar recorded function: `y = x * x`. -/
def ySquare : AExpr := .mul .var .var

/-- The detached product: `u = y.detach(); z = u * x` with `y = x * x`. -/
def zDetached : AExpr := .mul (.detach ySquare) .var

/-- The sum function of the gradient-overwrite cell: `y = x.sum()`. -/
def ySum : AExpr := .sumE .var

/-- C1: for x = [0., 1., 2., 3.] with an attached gradient buffer, recording
y = 2 * dot(x, x) and calling y.backward() stores in x.grad a vector
elementwise equal to 4 * x, here [0., 4., 8., 12.]. -/
theorem grad_two_dot_eq_four_x :
    (backwardOp yDot (attach_grad x0)).grad = vscale 4 x0 ∧
    (backwardOp yDot (attach_grad x0)).grad = [0, 4, 8, 12] := by
  norm_num [backwardOp, backward, pullback, evalE, attach_grad, x0, yDot,
    vscale, vadd, vmul, vsum, vdot]

/-- C2: for x = [0., 1., 2., 3.], recording the non-scalar y = x * x and
calling y.backward() stores in x.grad the gradient of the sum of the entries
of y, a vector elementwise equal to 2 * x, here [0., 2., 4., 6.] — the same
shape as x, not a Jacobian. -/
theorem grad_square_eq_two_x :
    (backwardOp ySquare (attach_grad x0)).grad = vscale 2 x0 ∧
    (backwardOp ySquare (attach_grad x0)).grad = [0, 2, 4, 6] ∧
    (backwardOp ySquare (attach_grad x0)).grad.length = x0.length := by
  norm_num [backwardOp, backward, pullback, evalE, attach_grad, x0, ySquare,
    vscale, vadd, vmul, vsum, vdot, List.replicate]

/-- C3: with y = x * x recorded and u = y.detach(), recording z = u * x and
calling z.backward() yields x.grad elementwise equal to u = x * x (here
[0., 1., 4., 9.]), and not to 3 * x * x (here [0., 3., 12., 27.]): no
gradient flows through the detached value u back to x. -/
theorem grad_detached_eq_u :
    (backwardOp zDetached (attach_grad x0)).grad = evalE ySquare x0 ∧
    (backwardOp zDetached (attach_grad x0)).grad = [0, 1, 4, 9] ∧
    (backwardOp zDetached (attach_grad x0)).grad ≠
      vmul (vscale 3 x0) x0 := by
  refine ⟨?_, ?_, ?_⟩ <;>
    norm_num [backwardOp, backward, pullback, evalE, attach_grad, x0,
      zDetached, ySquare, vscale, vadd, vmul, vsum, vdot, List.replicate]

/-- C4: detaching u = y.detach() leaves the graph segment leading to y
unchanged: after z = u * x has been backpropagated, calling y.backward()
still succeeds and overwrites x.grad with a vector elementwise equal to
2 * x (here [0., 2., 4., 6.]). -/
theorem grad_y_after_detach :
    (backwardOp ySquare (backwardOp zDetached (attach_grad x0))).grad
      = vscale 2 x0 ∧
    (backwardOp ySquare (backwardOp zDetached (attach_grad x0))).grad
      = [0, 2, 4, 6] := by
  refine ⟨?_, ?_⟩ <;>
    norm_num [backwardOp, backward, pullback, evalE, attach_grad, x0,
      zDetached, ySquare, vscale, vadd, vmul, vsum, vdot, List.replicate]

/-- C10: backpropagating a newly recorded function of x overwrites x.grad
rather than accumulating: after y = 2 * dot(x, x) sets x.grad = [0,4,8,12],
recording y = x.sum() and calling y.backward() leaves x.grad equal to the
all-ones vector, not to 4 * x plus ones. -/
theorem grad_overwritten_not_accumulated :
    (backwardOp yDot (attach_grad x0)).grad = [0, 4, 8, 12] ∧
    (backwardOp ySum (backwardOp yDot (attach_grad x0))).grad
      = [1, 1, 1, 1] ∧
    (backwardOp ySum (backwardOp yDot (attach_grad x0))).grad
      ≠ vadd (vscale 4 x0) [1, 1, 1, 1] := by
  refine ⟨?_, ?_, ?_⟩ <;>
    norm_num [backwardOp, backward, pullback, evalE, attach_grad, x0,
      yDot, ySum, vscale, vadd, vmul, vsum, vdot, List.replicate]

/-! ## Gradients and Python control flow: the function `f`

The notebook defines

```
def f(a):
    b = a * 2
    while np.linalg.norm(b) < 1000:
        b = b * 2
    if b.sum() > 0:
        c = b
    else:
        c = 100 * b
    return c
```

Over exact arithmetic the comparison `norm(b) < 1000` of nonnegative reals is
equivalent to `norm(b)² < 1000²`, i.e. `vdot b b < 1000000`, which keeps the
embedding inside ℚ.  The loop is given explicit fuel; exhausting the fuel
while the loop guard still holds returns `none`. -/

/-- The while loop of `f`: keep doubling `b` while `norm(b) < 1000`,
with fuel counting the remaining allowed iterations. -/
def loopF : Nat → List ℚ → Option (List ℚ)
  | 0, b => if vdot b b < 1000000 then none else some b
  | n + 1, b => if vdot b b < 1000000 then loopF n (vscale 2 b) else some b

/-- The function `f` of the notebook, fuel-based: double `a`, run the while
loop, then return `b` when `b.sum() > 0` and `100 * b` otherwise. -/
def f (a : List ℚ) (fuel : Nat) : Option (List ℚ) :=
  (loopF fuel (vscale 2 a)).map (fun b => if 0 < vsum b then b else vscale 100 b)

/-- Unfolding of `vdot` on cons cells. -/
theorem vdot_cons (a b : ℚ) (u v : List ℚ) :
    vdot (a :: u) (b :: v) = a * b + vdot u v := by
  simp [vdot, vmul, vsum]

/-- The squared norm scales with the square of a scalar factor. -/
theorem vdot_vscale_self (c : ℚ) (b : List ℚ) :
    vdot (vscale c b) (vscale c b) = c ^ 2 * vdot b b := by
  induction b with
  | nil => simp [vdot, vscale, vmul, vsum]
  | cons a tl ih =>
    have h1 : vscale c (a :: tl) = (c * a) :: vscale c tl := rfl
    rw [h1, vdot_cons, vdot_cons, ih]
    ring

/-- The squared norm is nonnegative. -/
theorem vdot_self_nonneg (b : List ℚ) : 0 ≤ vdot b b := by
  induction b with
  | nil => simp [vdot, vmul, vsum]
  | cons a tl ih =>
    rw [vdot_cons]
    exact add_nonneg (mul_self_nonneg a) ih

/-- The loop terminates within `n` iterations as soon as `n` doublings
suffice to push the squared norm to 1000². -/
theorem loopF_some (n : Nat) :
    ∀ b : List ℚ, 1000000 ≤ vdot b b * 4 ^ n → ∃ r, loopF n b = some r := by
  induction n with
  | zero =>
    intro b hb
    rw [pow_zero, mul_one] at hb
    exact ⟨b, by simp [loopF, not_lt.2 hb]⟩
  | succ n ih =>
    intro b hb
    by_cases hlt : vdot b b < 1000000
    · have hstep : 1000000 ≤ vdot (vscale 2 b) (vscale 2 b) * 4 ^ n := by
        rw [vdot_vscale_self]
        have h4 : vdot b b * 4 ^ (n + 1) = (2 : ℚ) ^ 2 * vdot b b * 4 ^ n := by
          rw [pow_succ]; ring
        rw [← h4]
        exact hb
      obtain ⟨r, hr⟩ := ih (vscale 2 b) hstep
      exact ⟨r, by simp [loopF, hlt, hr]⟩
    · exact ⟨b, by simp [loopF, hlt]⟩

/-- A power of four eventually dominates any ratio: enough doublings exist. -/
theorem exists_enough_fuel (s : ℚ) (hs : 0 < s) :
    ∃ n : Nat, 1000000 ≤ s * 4 ^ n := by
  obtain ⟨m, hm⟩ := exists_nat_ge (1000000 / s)
  refine ⟨m, ?_⟩
  have h2 : (m : ℚ) < 2 ^ m := by exact_mod_cast Nat.lt_two_pow m
  have h4 : (2 : ℚ) ^ m ≤ 4 ^ m := pow_le_pow_left₀ (by norm_num) (by norm_num) m
  have hle : 1000000 / s ≤ 4 ^ m := le_trans hm (le_trans h2.le h4)
  rw [div_le_iff₀ hs] at hle
  linarith

/-- C9: for every input a of nonzero norm, the while loop of f(a) terminates
(some fuel suffices, since the squared norm quadruples each iteration), and
f returns a value; for a = 0 the loop guard never becomes false and no
amount of fuel makes f return. -/
theorem f_control_flow_terminates :
    (∀ a : List ℚ, vdot a a ≠ 0 → ∃ fuel c, f a fuel = some c) ∧
    (∀ fuel, f [(0 : ℚ)] fuel = none) := by
  constructor
  · intro a ha
    have hpos : 0 < vdot a a := lt_of_le_of_ne (vdot_self_nonneg a) (Ne.symm ha)
    have hs : 0 < vdot (vscale 2 a) (vscale 2 a) := by
      rw [vdot_vscale_self]; positivity
    obtain ⟨n, hn⟩ := exists_enough_fuel _ hs
    obtain ⟨r, hr⟩ := loopF_some n (vscale 2 a) hn
    refine ⟨n, if 0 < vsum r then r else vscale 100 r, ?_⟩
    simp [f, hr]
  · intro fuel
    have hz : ∀ m : Nat, loopF m [(0 : ℚ)] = none := by
      intro m
      induction m with
      | zero => norm_num [loopF, vdot, vmul, vsum]
      | succ m ih =>
        have h0 : vscale 2 [(0 : ℚ)] = [(0 : ℚ)] := by norm_num [vscale]
        have hlt : vdot [(0 : ℚ)] [(0 : ℚ)] < 1000000 := by
          norm_num [vdot, vmul, vsum]
        simp [loopF, hlt, h0, ih]
    have h0 : vscale 2 [(0 : ℚ)] = [(0 : ℚ)] := by norm_num [vscale]
    simp [f, h0, hz fuel]

/-- C9 witness: the input [1] has nonzero norm and f on it terminates; on the
zero input f with fuel 5 returns none. -/
theorem f_control_flow_witness :
    (∃ fuel c, f [(1 : ℚ)] fuel = some c) ∧ f [(0 : ℚ)] 5 = none :=
  ⟨f_control_flow_terminates.1 [(1 : ℚ)] (by norm_num [vdot, vmul, vsum]),
   f_control_flow_terminates.2 5⟩

/-! ## Parameter sharing: the shared-layer Sequential network

The parameter-management notebook builds

```
shared = nn.Dense(8)
net = nn.Sequential([nn.Dense(8), nn.relu,
                     shared, nn.relu,
                     shared, nn.relu,
                     nn.Dense(1)])
params = net.init(jax.random.PRNGKey(d2l.get_seed()), X)
print(len(params['params']) == 3)
```

Module instances are identified by an instance id, so that the one `shared`
object occurring twice in the layer list is one and the same module. -/

/-- A Flax module in the Sequential list: a Dense layer identified by its
Python object identity and its feature count, or the parameterless relu. -/
inductive Layer where
  | dense (instanceId : Nat) (features : Nat)
  | relu
deriving DecidableEq

/-- The single shared Dense(8) instance: `shared = nn.Dense(8)`. -/
def shared : Layer := .dense 1 8

/-- The layer list of the shared-layer network, with `shared` occupying the
third and fifth slots (indices 2 and 4). -/
def sharedNet : List Layer :=
  [.dense 0 8, .relu, shared, .relu, shared, .relu, .dense 2 1]

/-- Modelled from the spec: Flax `net.init` is not part of this repository;
the spec describes the result as a parameter container keyed by layer,
supporting tying (aliasing) of sub-trees across layers.  The tree has one
entry per distinct parameterized module instance: relu contributes nothing,
and a module instance occurring twice contributes a single entry. -/
def paramKeys (net : List Layer) : List Nat :=
  (net.filterMap (fun m => match m with
    | .dense i _ => some i
    | .relu => none)).dedup

/-- The key under which the parameters of the module in slot `k` live. -/
def slotParamKey (net : List Layer) (k : Nat) : Option Nat :=
  match net.get? k with
  | some (.dense i _) => some i
  | _ => none

/-- Read a parameter subtree from the tree by its key. -/
def readParams (tree : List (Nat × List ℚ)) (key : Nat) : Option (List ℚ) :=
  (tree.find? (fun p => p.1 == key)).map Prod.snd

/-- Replace the parameter subtree stored under `key`. -/
def writeParams (tree : List (Nat × List ℚ)) (key : Nat) (v : List ℚ) :
    List (Nat × List ℚ) :=
  tree.map (fun p => if p.1 = key then (p.1, v) else p)

/-- Writing under a key that is present is observed by any read of that key. -/
theorem readParams_writeParams (tree : List (Nat × List ℚ)) (key : Nat)
    (v : List ℚ) (h : (readParams tree key).isSome = true) :
    readParams (writeParams tree key v) key = some v := by
  induction tree with
  | nil => simp [readParams] at h
  | cons p tl ih =>
    obtain ⟨k, w⟩ := p
    by_cases hk : k = key
    · subst hk
      simp [readParams, writeParams, List.find?]
    · have hbeq : (k == key) = false := by simp [hk]
      have h1 : readParams ((k, w) :: tl) key = readParams tl key := by
        simp [readParams, List.find?, hbeq]
      rw [h1] at h
      have h2 : writeParams ((k, w) :: tl) key v
          = (k, w) :: writeParams tl key v := by
        simp [writeParams, hk]
      rw [h2]
      have h3 : readParams ((k, w) :: writeParams tl key v) key
          = readParams (writeParams tl key v) key := by
        simp [readParams, List.find?, hbeq]
      rw [h3]
      exact ih h

/-- C5 counterexample: the Sequential layer list of the shared-layer cell has
seven slots, not six. -/
theorem sharedNet_not_six_slots :
    sharedNet.length = 7 ∧ ¬ sharedNet.length = 6 := by
  decide

/-- C5 (amended to seven slots): with the same Dense(8) instance `shared`
occupying two of the seven slots of the Sequential network, net.init yields a
parameter tree with exactly three layer entries; both occurrences of `shared`
resolve to one and the same key, so a parameter change written through that
key is read back through the other occurrence. -/
theorem shared_params_three_entries :
    (paramKeys sharedNet).length = 3 ∧
    sharedNet.count shared = 2 ∧
    slotParamKey sharedNet 2 = slotParamKey sharedNet 4 ∧
    slotParamKey sharedNet 2 = some 1 ∧
    ∀ (tree : List (Nat × List ℚ)) (v : List ℚ),
      (readParams tree 1).isSome = true →
      readParams (writeParams tree 1 v) 1 = some v := by
  refine ⟨by decide, by decide, by decide, by decide, ?_⟩
  intro tree v h
  exact readParams_writeParams tree 1 v h

/-- C5 witness: concrete tree with the shared key present; the write through
the shared key is read back. -/
theorem shared_params_witness :
    (readParams [(1, [5])] 1).isSome = true ∧
    readParams (writeParams [(1, [5])] 1 [9]) 1 = some [9] :=
  ⟨by decide, shared_params_three_entries.2.2.2.2 [(1, [5])] [9] (by decide)⟩

/-! ## Parameter initialization hooks

The initialization notebook uses the presets `nn.initializers.normal(0.01)`,
`nn.initializers.zeros`, `nn.initializers.constant(1)` /
`nn.initializers.constant(42)`, `nn.initializers.xavier_uniform()` and the
custom initializer

```
def my_init(key, shape, dtype=jnp.float_):
    data = jax.random.uniform(key, shape, minval=-10, maxval=10)
    return data * (jnp.abs(data) >= 5)
```
-/

/-- An n-dimensional array: its shape and its row-major flat data. -/
structure Arr where
  shape : List Nat
  data : List ℚ
deriving DecidableEq

/-- Modelled from the spec: `jax.random.uniform(key, shape, minval, maxval)`
is not part of this repository; it draws an array of the requested shape with
entries in [minval, maxval].  The pseudo-random draw is a deterministic
stand-in keyed by `key`; only its shape behavior matters here. -/
def uniform (key : Nat) (shape : List Nat) (minval maxval : ℚ) : Arr :=
  ⟨shape, (List.range shape.prod).map
    (fun i => minval + (((key + i) % 30 : Nat) : ℚ) / 29 * (maxval - minval))⟩

/-- Modelled from the spec: the preset `nn.initializers.normal(stddev)`,
drawing an array of the requested shape (deterministic stand-in values). -/
def normal (stddev : ℚ) (key : Nat) (shape : List Nat) : Arr :=
  ⟨shape, (List.range shape.prod).map
    (fun i => stddev * ((((key + i) % 13 : Nat) : ℚ) - 6))⟩

/-- Modelled from the spec: the preset `nn.initializers.zeros`. -/
def zeros (key : Nat) (shape : List Nat) : Arr :=
  ⟨shape, List.replicate shape.prod 0⟩

/-- Modelled from the spec: the preset `nn.initializers.constant(c)`. -/
def constant (c : ℚ) (key : Nat) (shape : List Nat) : Arr :=
  ⟨shape, List.replicate shape.prod c⟩

/-- Modelled from the spec: the preset `nn.initializers.xavier_uniform()`,
a uniform draw of the requested shape. -/
def xavier_uniform (key : Nat) (shape : List Nat) : Arr :=
  uniform key shape (-1) 1

/-- The custom initializer `my_init` of the source: a uniform draw on
[-10, 10] multiplied elementwise by the 0/1 mask `abs(data) >= 5`. -/
def my_init (key : Nat) (shape : List Nat) : Arr :=
  let data := uniform key shape (-10) 10
  ⟨data.shape, data.data.map (fun v => v * (if 5 ≤ |v| then 1 else 0))⟩

/-- C7: every initialization hook, applied to a shape, yields an array of
exactly that shape — the built-in presets normal(0.01), zeros, constant(c),
xavier_uniform and the custom extension point my_init — and in each case the
flat data has exactly shape.prod entries. -/
theorem init_hooks_shape (key : Nat) (shape : List Nat) (c : ℚ) :
    (normal (1 / 100) key shape).shape = shape ∧
    (zeros key shape).shape = shape ∧
    (constant c key shape).shape = shape ∧
    (xavier_uniform key shape).shape = shape ∧
    (my_init key shape).shape = shape ∧
    (normal (1 / 100) key shape).data.length = shape.prod ∧
    (zeros key shape).data.length = shape.prod ∧
    (constant c key shape).data.length = shape.prod ∧
    (xavier_uniform key shape).data.length = shape.prod ∧
    (my_init key shape).data.length = shape.prod := by
  refine ⟨rfl, rfl, rfl, rfl, rfl, ?_, ?_, ?_, ?_, ?_⟩ <;>
    simp [normal, zeros, constant, xavier_uniform, uniform, my_init]

/-! ## The asynchronous backend

Modelled from the spec: the MXNet frontend/backend producer-consumer model is
not part of this repository.  The spec describes a frontend thread that
enqueues tasks for asynchronous backend workers, a global
wait-for-all-pending-work call (`npx.waitall()`), a per-value
wait-until-ready call (`z.wait_to_read()`), and implicit barriers from
data-exfiltration calls (printing, `asnumpy()`, `item()`).  Tasks are
executed in queue order; waiting on one value executes the queue up to and
including the producer of that value. -/

/-- The backend state: the queue of pending task ids, in order, and the ids
of completed tasks. -/
structure Backend where
  pending : List Nat
  completed : List Nat
deriving DecidableEq

/-- Modelled from the spec: `npx.waitall()` blocks until all pending work has
been executed. -/
def waitall (s : Backend) : Backend :=
  ⟨[], s.completed ++ s.pending⟩

/-- Modelled from the spec: `z.wait_to_read()` blocks until `z` itself has
been computed: the queue is executed up to and including the producer of `z`,
later queued work staying pending. -/
def wait_to_read (v : Nat) (s : Backend) : Backend :=
  if v ∈ s.completed then s
  else ⟨(s.pending.dropWhile (fun t => t != v)).drop 1,
        s.completed ++ s.pending.takeWhile (fun t => t != v)
          ++ (s.pending.dropWhile (fun t => t != v)).take 1⟩

/-- Modelled from the spec: converting a value to a host numpy array is an
implicit per-value barrier. -/
def asnumpy (v : Nat) (s : Backend) : Backend := wait_to_read v s

/-- Modelled from the spec: converting a scalar value to a host scalar is an
implicit per-value barrier. -/
def item (v : Nat) (s : Backend) : Backend := wait_to_read v s

/-- Modelled from the spec: printing a value is an implicit per-value
barrier. -/
def printValue (v : Nat) (s : Backend) : Backend := wait_to_read v s

/-- Dropping the queue prefix that is not `v` reaches `v` when `v` is
queued. -/
theorem dropWhile_take_mem (v : Nat) (l : List Nat) (hv : v ∈ l) :
    (l.dropWhile (fun t => t != v)).take 1 = [v] := by
  induction l with
  | nil => simp at hv
  | cons a tl ih =>
    by_cases ha : a = v
    · subst ha
      simp [List.dropWhile_cons]
    · have hv' : v ∈ tl := by
        rcases List.mem_cons.1 hv with h | h
        · exact absurd h.symm ha
        · exact h
      have hb : (a != v) = true := by simp [ha]
      rw [List.dropWhile_cons, if_pos hb]
      exact ih hv'

/-- C6: after the global waitall returns, every previously enqueued task has
completed and nothing is pending; after wait_to_read z returns, z has been
computed while other queued work may still be pending (witnessed by a state
where it is); printing a value, asnumpy and item likewise leave the value
computed. -/
theorem sync_primitives :
    (∀ s : Backend, (waitall s).pending = [] ∧
      ∀ t : Nat, t ∈ s.pending ∨ t ∈ s.completed → t ∈ (waitall s).completed) ∧
    (∀ (v : Nat) (s : Backend), v ∈ s.pending ∨ v ∈ s.completed →
      v ∈ (wait_to_read v s).completed) ∧
    (∃ (v : Nat) (s : Backend),
      v ∈ (wait_to_read v s).completed ∧ (wait_to_read v s).pending ≠ []) ∧
    (∀ (v : Nat) (s : Backend), v ∈ s.pending ∨ v ∈ s.completed →
      v ∈ (printValue v s).completed ∧ v ∈ (asnumpy v s).completed ∧
        v ∈ (item v s).completed) := by
  have hmain : ∀ (v : Nat) (s : Backend), v ∈ s.pending ∨ v ∈ s.completed →
      v ∈ (wait_to_read v s).completed := by
    intro v s hv
    by_cases hc : v ∈ s.completed
    · simp [wait_to_read, hc]
    · have hp : v ∈ s.pending := hv.resolve_right hc
      have htake := dropWhile_take_mem v s.pending hp
      simp [wait_to_read, hc, htake]
  refine ⟨?_, hmain, ?_, ?_⟩
  · intro s
    refine ⟨rfl, ?_⟩
    intro t ht
    simp [waitall]
    tauto
  · refine ⟨0, ⟨[0, 1], []⟩, ?_, ?_⟩ <;> decide
  · intro v s hv
    exact ⟨hmain v s hv, hmain v s hv, hmain v s hv⟩

/-- C6 witness: in the concrete state with queue [3, 7], waiting to read
value 3 leaves 3 computed (and likewise through the implicit item barrier). -/
theorem sync_primitives_witness :
    3 ∈ (wait_to_read 3 (Backend.mk [3, 7] [])).completed ∧
    3 ∈ (item 3 (Backend.mk [3, 7] [])).completed :=
  ⟨sync_primitives.2.1 3 ⟨[3, 7], []⟩ (Or.inl (by decide)),
   (sync_primitives.2.2.2 3 ⟨[3, 7], []⟩ (Or.inl (by decide))).2.2⟩

/-! ## Notebook documents and their code cells

The repository consists of four notebook documents; the line counts of their
code cells (the lengths of the `source` arrays of the `code` cells, in
document order) are transcribed directly from the JSON files:

* the parameter-management notebook (`jax/chapter_builders-guide/parameters.ipynb`),
* the asynchronous-computation notebook (`mxnet/chapter_computational-performance/async-computation.ipynb`),
* the automatic-differentiation notebook,
* the parameter-initialization notebook. -/

/-- The code-cell line counts of each notebook document, in file order. -/
def notebookCellLines : List (List Nat) :=
  [[4, 5, 1, 2, 1, 12],
   [8, 9, 5, 4, 7, 7, 9],
   [3, 2, 5, 5, 2, 1, 4, 4, 6, 2, 9, 5, 1],
   [4, 4, 10, 9, 8, 7]]

/-- C8 counterexample: not every code cell has one to five lines of source —
the `def f(a)` cell of the automatic-differentiation notebook (the third
document) has nine lines, and the shared-layer cell of the
parameter-management notebook (the first document) has twelve. -/
theorem notebook_cell_over_five_lines :
    9 ∈ notebookCellLines.getD 2 [] ∧
    12 ∈ notebookCellLines.getD 0 [] ∧
    ¬ ∀ doc ∈ notebookCellLines, ∀ n ∈ doc, 1 ≤ n ∧ n ≤ 5 := by
  decide

/-- C8 (amended from five to twelve): every code cell of every notebook
document in this repository consists of one to twelve lines of source. -/
theorem notebook_cells_one_to_twelve_lines :
    ∀ doc ∈ notebookCellLines, ∀ n ∈ doc, 1 ≤ n ∧ n ≤ 12 := by
  decide

/-- C8 witness: the nine-line cell of the third document satisfies the
amended bound. -/
theorem notebook_cells_lines_witness : 1 ≤ 9 ∧ 9 ≤ 12 :=
  notebook_cells_one_to_twelve_lines [3, 2, 5, 5, 2, 1, 4, 4, 6, 2, 9, 5, 1]
    (by decide) 9 (by decide)
